import Mathlib

/-!
# nymCHAT server core — shallow embedding

A shallow embedding of the nymCHAT directory/relay server
(`server/src/messageUtils.py`, `server/dbUtils.py`,
`server/src/cryptographyUtils.py`) and proofs of the specification
claims about it.

Conventions:
* Python strings are Lean `String`; byte strings are `List Nat` with each
  entry `< 256`.
* Python dicts (`PENDING_USERS`, `NONCES`) are association lists keyed by
  the observed sender tag.
* The sqlite `users` table is a list of rows in insertion order; the
  `username TEXT PRIMARY KEY` constraint is reflected in `addUser`
  failing exactly when the username is already present.
* Cryptographic primitives (ECDSA verification, AES-GCM, PBKDF2) are
  abstracted as function parameters of a `Config`; their correctness
  properties appear as hypotheses where a claim needs them.
* Python exceptions escaping a handler are modelled by handlers
  returning `ServerState × Option DbError`: `some e` means the handler
  raised after performing the state mutations recorded in the returned
  state. The server's receive loop exits fatally on such an exception
  (`websocketUtils.receive_messages`), so trace execution stops there.
-/

/-- Row of the sqlite `users` table (`dbUtils._initializeTables`):
`username TEXT PRIMARY KEY, publicKey TEXT NOT NULL, senderTag TEXT NOT NULL`.
The `pkStored`/`tagStored` columns hold whatever string was written
(intended to be ciphertext). -/
structure UserRow where
  username : String
  pkStored : String
  tagStored : String
deriving Repr, DecidableEq

/-- Error raised out of a storage read when a stored field fails to
decrypt (`CryptoUtils._decrypt_data` raising on bad ciphertext). -/
inductive DbError where
  | decryptError
deriving Repr, DecidableEq

/-- The python value handed to `json.dumps` (or passed directly) as the
`content` of an encapsulated reply: either a plain string, or a dict of
string-or-`None` values in insertion order. -/
inductive Content where
  | text (s : String)
  | obj (fields : List (String × Option String))
deriving Repr, DecidableEq

/-- One call of `MessageUtils.sendEncapsulatedReply`: target tag, the
content, the `action` and the `context` of the inner envelope. -/
structure Reply where
  recipientTag : String
  content : Content
  action : String
  context : String
deriving Repr, DecidableEq

/-- Value of `PENDING_USERS[tag]` / `NONCES[tag]`: the tuple
`(username, publicKey, nonce)`. -/
structure PendingEntry where
  username : String
  publicKey : String
  nonce : String
deriving Repr, DecidableEq

/-- The mutable server state touched by the message handlers: the users
table, the two challenge ledgers, the sequence of encapsulated replies
handed to the transport, and a ghost log of the
`(publicKey, message)` pairs passed to `verify_signature`. -/
structure ServerState where
  users : List UserRow
  pendingUsers : List (String × PendingEntry)
  nonces : List (String × PendingEntry)
  replies : List Reply
  verifLog : List (String × String)
deriving Repr, DecidableEq

/-- Parsed form of the `content` JSON of a `send`
(`{sender, recipient, body, [senderPublicKey]}`); each field is the
result of `dict.get`. -/
structure SendContent where
  sender : Option String
  recipient : Option String
  body : Option String
  senderPublicKey : Option String
deriving Repr, DecidableEq

/-- The environment a handler runs in: the abstract crypto primitives
and the JSON decoder for `send` content.

`verify pk msg sig` is `CryptoUtils.verify_signature` (never raises,
returns `false` on any failure).  `enc r x` is
`CryptoUtils._encrypt_data` applied with the `r`-th draw of fresh
salt+IV randomness; `dec` is `CryptoUtils._decrypt_data`, `none`
standing for the exception raised on invalid ciphertext.  Both are
modelled from the spec: the bodies of `_encrypt_data`/`_decrypt_data`
are absent from the sources, which give only the AES-256-GCM
`salt ‖ iv ‖ tag ‖ ct` scheme they implement. -/
structure Config where
  verify : String → String → String → Bool
  enc : Nat → String → String
  dec : String → Option String
  parseContent : String → Option SendContent

/-- Python truthiness filter for an optional string field: `None` and
`""` are falsy. -/
def truthyVal : Option String → Option String
  | none => none
  | some s => if s == "" then none else some s

/-- `MessageUtils.is_valid_username`: `re.fullmatch(r"[A-Za-z0-9_-]+", u)`. -/
def isValidUsername (u : String) : Bool :=
  u ≠ "" && u.data.all (fun c => c.isAlpha || c.isDigit || c == '_' || c == '-')

/-! ## Python dict operations (association lists keyed by sender tag) -/

/-- `d[k]` / `d.get(k)`: first (and, for states built through `dictSet`,
only) entry with key `k`. -/
def dictGet : List (String × PendingEntry) → String → Option PendingEntry
  | [], _ => none
  | p :: rest, k => if p.1 = k then some p.2 else dictGet rest k

/-- `d[k] = v`: replace the entry for `k` in place, or append a new one. -/
def dictSet : List (String × PendingEntry) → String → PendingEntry →
    List (String × PendingEntry)
  | [], k, v => [(k, v)]
  | p :: rest, k, v => if p.1 = k then (k, v) :: dictSet rest k v else p :: dictSet rest k v

/-- `del d[k]`: drop the entry for `k`. -/
def dictDel : List (String × PendingEntry) → String → List (String × PendingEntry)
  | [], _ => []
  | p :: rest, k => if p.1 = k then dictDel rest k else p :: dictDel rest k

/-! ## Directory store (`dbUtils.DbUtils`) -/

/-- `DbUtils.getUserByUsername`: `SELECT * FROM users WHERE username = ?`,
then decrypt `publicKey` and `senderTag` of the row found.  A decryption
failure raises (`.error`); otherwise the decrypted triple (or `none` on
no row) is returned. -/
def getUserByUsername (dec : String → Option String) (users : List UserRow)
    (u : String) : Except DbError (Option (String × String × String)) :=
  match users.find? (·.username == u) with
  | none => .ok none
  | some r =>
    match dec r.pkStored, dec r.tagStored with
    | some pk, some tg => .ok (some (r.username, pk, tg))
    | _, _ => .error .decryptError

/-- `DbUtils.getUserBySenderTag`: `SELECT * FROM users WHERE senderTag = ?`
— sqlite compares the *stored* (encrypted) `senderTag` column against the
plaintext argument — then decrypts the row found. -/
def getUserBySenderTag (dec : String → Option String) (users : List UserRow)
    (t : String) : Except DbError (Option (String × String × String)) :=
  match users.find? (·.tagStored == t) with
  | none => .ok none
  | some r =>
    match dec r.pkStored, dec r.tagStored with
    | some pk, some tg => .ok (some (r.username, pk, tg))
    | _, _ => .error .decryptError

/-- Modelled from the spec: the directory lookup `get_by_sender_tag`
as §4.2 of the specification describes it — "decrypt-and-scan on each
call": return the first stored row whose *decrypted* `senderTag` equals
the plaintext argument. -/
def getUserBySenderTagSpec (dec : String → Option String) (users : List UserRow)
    (t : String) : Option (String × String × String) :=
  match users with
  | [] => none
  | r :: rest =>
    match dec r.pkStored, dec r.tagStored with
    | some pk, some tg =>
      if tg == t then some (r.username, pk, tg)
      else getUserBySenderTagSpec dec rest t
    | _, _ => getUserBySenderTagSpec dec rest t

/-- `DbUtils.addUser`: encrypt both fields (fresh randomness `r1`, `r2`)
and `INSERT`; the `username` primary key makes the insert raise
`IntegrityError` — caught, returning `False` — exactly when the username
already exists.  Returns (success, table). -/
def addUser (enc : Nat → String → String) (r1 r2 : Nat) (users : List UserRow)
    (u pk tag : String) : Bool × List UserRow :=
  if users.any (·.username == u) then (false, users)
  else (true, users ++ [⟨u, enc r1 pk, enc r2 tag⟩])

/-- Result of `DbUtils.updateUserField`: the returned boolean, whether an
`UPDATE` statement was executed at all, and the resulting table. -/
structure UpdateResult where
  ok : Bool
  executed : Bool
  users : List UserRow
deriving Repr, DecidableEq

/-- `DbUtils.updateUserField`: reject any field outside
`["publicKey", "senderTag"]` before touching storage; otherwise
`UPDATE users SET <field> = ? WHERE username = ?` with the *raw* value
(no encryption is applied on this path). -/
def updateUserField (users : List UserRow) (u field v : String) : UpdateResult :=
  if field == "publicKey" then
    ⟨true, true, users.map (fun r => if r.username == u then { r with pkStored := v } else r)⟩
  else if field == "senderTag" then
    ⟨true, true, users.map (fun r => if r.username == u then { r with tagStored := v } else r)⟩
  else ⟨false, false, users⟩

/-! ## Message handlers (`server/src/messageUtils.py`) -/

/-- Result of processing one message: the state after the handler, and
`some e` when the handler raised `e` part-way through. -/
abbrev HResult := ServerState × Option DbError

/-- `MessageUtils.sendEncapsulatedReply`: append one encapsulated reply
for the transport. -/
def sendReply (st : ServerState) (tag : String) (c : Content)
    (action ctx : String) : ServerState :=
  { st with replies := st.replies ++ [⟨tag, c, action, ctx⟩] }

/-- Ghost instrumentation: record one call of
`CryptoUtils.verify_signature` with the given public key and message. -/
def logVerif (st : ServerState) (pk msg : String) : ServerState :=
  { st with verifLog := st.verifLog ++ [(pk, msg)] }

/-- `verify_signature(pk, msg, sig)` as invoked from a handler: a `None`
signature makes `bytes.fromhex` raise, which the function catches,
returning `False`. -/
def verifySig (cfg : Config) (pk msg : String) (sig : Option String) : Bool :=
  match sig with
  | none => false
  | some s => cfg.verify pk msg s

/-- `MessageUtils.handleRegister` (`server/src/messageUtils.py` 248–269):
truthiness check on `usernym`/`publicKey`, username-format check,
duplicate check against the directory, then store
`(username, publicKey, nonce)` in `PENDING_USERS[tag]` and send the
challenge.  `nonce` is the fresh `secrets.token_hex(16)` draw. -/
def handleRegister (cfg : Config) (st : ServerState) (tag : String)
    (usernym publicKey : Option String) (nonce : String) : HResult :=
  match truthyVal usernym, truthyVal publicKey with
  | some u, some pk =>
    if ¬ isValidUsername u then
      (sendReply st tag (.text "error: invalid username format") "challengeResponse" "registration", none)
    else
      match getUserByUsername cfg.dec st.users u with
      | .error e => (st, some e)
      | .ok (some _) =>
        (sendReply st tag (.text "error: username already in use") "challengeResponse" "registration", none)
      | .ok none =>
        let st' := { st with pendingUsers := dictSet st.pendingUsers tag ⟨u, pk, nonce⟩ }
        (sendReply st' tag (.obj [("nonce", some nonce)]) "challenge" "registration", none)
  | _, _ =>
    (sendReply st tag (.text "error: missing username or public key") "challengeResponse" "registration", none)

/-- `MessageUtils.handleRegistrationResponse`
(`server/src/messageUtils.py` 271–293): consume `PENDING_USERS[tag]`,
verify the nonce signature, insert the user on success (deleting the
pending entry), keep the pending entry on a database failure, and delete
it on a failed verification.  `r1`, `r2` are the fresh randomness draws
of the two `_encrypt_data` calls inside `addUser`. -/
def handleRegistrationResponse (cfg : Config) (st : ServerState) (tag : String)
    (signature : Option String) (r1 r2 : Nat) : HResult :=
  match dictGet st.pendingUsers tag with
  | none =>
    (sendReply st tag (.text "error: no pending registration for sender") "challengeResponse" "registration", none)
  | some entry =>
    let st := logVerif st entry.publicKey entry.nonce
    if verifySig cfg entry.publicKey entry.nonce signature then
      let res := addUser cfg.enc r1 r2 st.users entry.username entry.publicKey tag
      let st := { st with users := res.2 }
      if res.1 then
        let st := sendReply st tag (.text "success") "challengeResponse" "registration"
        ({ st with pendingUsers := dictDel st.pendingUsers tag }, none)
      else
        (sendReply st tag (.text "error: database failure") "challengeResponse" "registration", none)
    else
      let st := sendReply st tag (.text "error: signature verification failed") "challengeResponse" "registration"
      ({ st with pendingUsers := dictDel st.pendingUsers tag }, none)

/-- `MessageUtils.handleLogin` (`server/src/messageUtils.py` 295–318):
look the user up, store `(username, publicKey, nonce)` in
`NONCES[tag]` and send the challenge. -/
def handleLogin (cfg : Config) (st : ServerState) (tag : String)
    (usernym : Option String) (nonce : String) : HResult :=
  match truthyVal usernym with
  | none =>
    (sendReply st tag (.text "error: missing username") "challengeResponse" "login", none)
  | some u =>
    match getUserByUsername cfg.dec st.users u with
    | .error e => (st, some e)
    | .ok none =>
      (sendReply st tag (.text "error: user not found") "challengeResponse" "login", none)
    | .ok (some (_, pk, _)) =>
      let st' := { st with nonces := dictSet st.nonces tag ⟨u, pk, nonce⟩ }
      (sendReply st' tag (.obj [("nonce", some nonce)]) "challenge" "login", none)

/-- `MessageUtils.handleLoginResponse` (`server/src/messageUtils.py`
320–366): consume `NONCES[tag]`, verify the nonce signature; on success
rebind the stored sender tag when it differs from the observed one
(`updateUserField` with the raw observed tag), reply `success` and
delete the ledger entry; on failure reply `error: invalid signature`
and delete the ledger entry. -/
def handleLoginResponse (cfg : Config) (st : ServerState) (tag : String)
    (signature : Option String) : HResult :=
  match dictGet st.nonces tag with
  | none =>
    (sendReply st tag (.text "error: no pending login for sender") "challengeResponse" "login", none)
  | some entry =>
    let st := logVerif st entry.publicKey entry.nonce
    if verifySig cfg entry.publicKey entry.nonce signature then
      match getUserByUsername cfg.dec st.users entry.username with
      | .error e => (st, some e)
      | .ok r =>
        let st :=
          match r with
          | some (_, _, dbTag) =>
            if dbTag != tag then
              { st with users := (updateUserField st.users entry.username "senderTag" tag).users }
            else st
          | none => st
        let st := sendReply st tag (.text "success") "challengeResponse" "login"
        ({ st with nonces := dictDel st.nonces tag }, none)
    else
      let st := sendReply st tag (.text "error: invalid signature") "challengeResponse" "login"
      ({ st with nonces := dictDel st.nonces tag }, none)

/-- `MessageUtils.handleQuery` (`server/src/messageUtils.py` 196–246):
look the username up; on a hit reply with the dict holding exactly
`username` and `publicKey`; on a miss reply `No user found`. -/
def handleQuery (cfg : Config) (st : ServerState) (tag : String)
    (username : Option String) : HResult :=
  match truthyVal username with
  | none =>
    (sendReply st tag (.text "error: missing 'username' field") "queryResponse" "query", none)
  | some u =>
    match getUserByUsername cfg.dec st.users u with
    | .error e => (st, some e)
    | .ok (some (un, pk, _)) =>
      (sendReply st tag (.obj [("username", some un), ("publicKey", some pk)]) "queryResponse" "query", none)
    | .ok none =>
      (sendReply st tag (.text "No user found") "queryResponse" "query", none)

/-- `MessageUtils.handleSend` (`server/src/messageUtils.py` 80–194):
validate, parse the content JSON, look the claimed sender up, verify
the signature over the raw content string, rebind the sender tag if it
changed (before the recipient lookup), look the recipient up, forward
the payload and confirm success. -/
def handleSend (cfg : Config) (st : ServerState) (tag : String)
    (content signature : Option String) : HResult :=
  match truthyVal content, truthyVal signature with
  | some cs, some sg =>
    match cfg.parseContent cs with
    | none =>
      (sendReply st tag (.text "error: invalid JSON in content") "sendResponse" "chat", none)
    | some cd =>
      match truthyVal cd.sender, truthyVal cd.recipient with
      | some su, some ru =>
        match getUserByUsername cfg.dec st.users su with
        | .error e => (st, some e)
        | .ok none =>
          (sendReply st tag (.text "error: unrecognized sender username") "sendResponse" "chat", none)
        | .ok (some (_, dbPk, dbTag)) =>
          let st := logVerif st dbPk cs
          if cfg.verify dbPk cs sg then
            let st :=
              if dbTag != tag then
                { st with users := (updateUserField st.users su "senderTag" tag).users }
              else st
            match getUserByUsername cfg.dec st.users ru with
            | .error e => (st, some e)
            | .ok none =>
              (sendReply st tag (.text "error: recipient not found") "sendResponse" "chat", none)
            | .ok (some (_, _, targetTag)) =>
              let payload : Content :=
                .obj ([("sender", some su), ("body", cd.body)] ++
                  (match cd.senderPublicKey with
                   | some spk => [("senderPublicKey", some spk)]
                   | none => []))
              let st := sendReply st targetTag payload "incomingMessage" "chat"
              (sendReply st tag (.text "success") "sendResponse" "chat", none)
          else
            (sendReply st tag (.text "error: invalid signature") "sendResponse" "chat", none)
      | _, _ =>
        (sendReply st tag (.text "error: missing 'sender' or 'recipient' field in message content") "sendResponse" "chat", none)
  | _, _ =>
    (sendReply st tag (.text "error: missing 'content' or 'signature'") "sendResponse" "chat", none)

/-! ## Dispatch and traces -/

/-- One inbound mix frame, as dispatched by
`MessageUtils.processReceivedMessage`: the action, the observed sender
tag, the action-specific fields, and the fresh randomness the handler
draws (`nonce`, or the `addUser` encryption randomness). -/
inductive Step where
  | register (tag : String) (usernym publicKey : Option String) (nonce : String)
  | registrationResponse (tag : String) (signature : Option String) (r1 r2 : Nat)
  | login (tag : String) (usernym : Option String) (nonce : String)
  | loginResponse (tag : String) (signature : Option String)
  | query (tag : String) (username : Option String)
  | send (tag : String) (content signature : Option String)
deriving Repr, DecidableEq

/-- Dispatch of a single inbound message to its handler
(`processReceivedMessage`). -/
def stepRun (cfg : Config) (st : ServerState) : Step → HResult
  | .register tag u pk nonce => handleRegister cfg st tag u pk nonce
  | .registrationResponse tag sig r1 r2 => handleRegistrationResponse cfg st tag sig r1 r2
  | .login tag u nonce => handleLogin cfg st tag u nonce
  | .loginResponse tag sig => handleLoginResponse cfg st tag sig
  | .query tag u => handleQuery cfg st tag u
  | .send tag c sig => handleSend cfg st tag c sig

/-- Run a sequence of inbound messages.  An unhandled exception kills
the receive loop (`websocketUtils.receive_messages` exits its
`while True` on any exception other than `ConnectionClosed`), so the
remaining messages are not processed. -/
def run (cfg : Config) (st : ServerState) : List Step → ServerState × Option DbError
  | [] => (st, none)
  | s :: rest =>
    match stepRun cfg st s with
    | (st', none) => run cfg st' rest
    | (st', some e) => (st', some e)

/-- The state at process start: empty table (fresh database), empty
ledgers, nothing sent. -/
def initialState : ServerState := ⟨[], [], [], [], []⟩

/-! ## Concrete instances used in witnesses and counterexamples -/

/-- Modelled from the spec: a concrete, executable stand-in for the
absent `CryptoUtils._encrypt_data` body.  It keeps the properties the
spec gives the real AES-256-GCM field encryption (§4.1): each call
prepends its fresh per-call randomness (the `salt ‖ iv` prefix, here the
draw index between markers), decryption inverts it, and a string that is
not a ciphertext fails to decrypt. -/
def encData (r : Nat) (x : String) : String :=
  "$" ++ toString r ++ "$" ++ x

/-- Modelled from the spec: decryption matching `encData` — strips the
randomness prefix, failing (as `decrypt_field` fails with `DecryptError`)
on anything that is not an `encData` output. -/
def decData (s : String) : Option String :=
  match s.data with
  | '$' :: rest =>
    match rest.takeWhile (·.isDigit), rest.dropWhile (·.isDigit) with
    | _ :: _, '$' :: body => some (String.mk body)
    | _, _ => none
  | _ => none

/-! ## Basic lemmas about the dictionary and table operations -/

theorem dictGet_dictSet_self (d : List (String × PendingEntry)) (k : String)
    (v : PendingEntry) : dictGet (dictSet d k v) k = some v := by
  induction d with
  | nil => simp [dictGet, dictSet]
  | cons p rest ih =>
    simp only [dictSet]
    by_cases hp : p.1 = k
    · rw [if_pos hp]; simp [dictGet]
    · rw [if_neg hp]; simp only [dictGet]; rw [if_neg hp]; exact ih

theorem dictGet_dictSet_ne (d : List (String × PendingEntry)) (k k' : String)
    (v : PendingEntry) (h : k ≠ k') : dictGet (dictSet d k v) k' = dictGet d k' := by
  induction d with
  | nil => simp [dictGet, dictSet, h]
  | cons p rest ih =>
    simp only [dictSet]
    by_cases hp : p.1 = k
    · rw [if_pos hp]
      simp only [dictGet]
      rw [if_neg h, if_neg (hp ▸ h : p.1 ≠ k'), ih]
    · rw [if_neg hp]
      simp only [dictGet]
      by_cases hp' : p.1 = k'
      · rw [if_pos hp', if_pos hp']
      · rw [if_neg hp', if_neg hp', ih]

theorem dictGet_dictDel_self (d : List (String × PendingEntry)) (k : String) :
    dictGet (dictDel d k) k = none := by
  induction d with
  | nil => simp [dictGet, dictDel]
  | cons p rest ih =>
    simp only [dictDel]
    by_cases hp : p.1 = k
    · rw [if_pos hp]; exact ih
    · rw [if_neg hp]; simp only [dictGet]; rw [if_neg hp]; exact ih

theorem dictGet_dictDel_ne (d : List (String × PendingEntry)) (k k' : String)
    (h : k ≠ k') : dictGet (dictDel d k) k' = dictGet d k' := by
  induction d with
  | nil => simp [dictGet, dictDel]
  | cons p rest ih =>
    simp only [dictDel]
    by_cases hp : p.1 = k
    · rw [if_pos hp, ih]
      simp only [dictGet]
      rw [if_neg (hp ▸ h : p.1 ≠ k')]
    · rw [if_neg hp]
      simp only [dictGet]
      by_cases hp' : p.1 = k'
      · rw [if_pos hp', if_pos hp']
      · rw [if_neg hp', if_neg hp', ih]

/-! ## Frame lemmas: which state components each handler can touch -/

@[simp] theorem sendReply_users (st : ServerState) (t : String) (c : Content)
    (a x : String) : (sendReply st t c a x).users = st.users := rfl

@[simp] theorem sendReply_pendingUsers (st : ServerState) (t : String) (c : Content)
    (a x : String) : (sendReply st t c a x).pendingUsers = st.pendingUsers := rfl

@[simp] theorem sendReply_nonces (st : ServerState) (t : String) (c : Content)
    (a x : String) : (sendReply st t c a x).nonces = st.nonces := rfl

@[simp] theorem sendReply_verifLog (st : ServerState) (t : String) (c : Content)
    (a x : String) : (sendReply st t c a x).verifLog = st.verifLog := rfl

@[simp] theorem sendReply_replies (st : ServerState) (t : String) (c : Content)
    (a x : String) : (sendReply st t c a x).replies = st.replies ++ [⟨t, c, a, x⟩] := rfl

@[simp] theorem logVerif_users (st : ServerState) (pk m : String) :
    (logVerif st pk m).users = st.users := rfl

@[simp] theorem logVerif_pendingUsers (st : ServerState) (pk m : String) :
    (logVerif st pk m).pendingUsers = st.pendingUsers := rfl

@[simp] theorem logVerif_nonces (st : ServerState) (pk m : String) :
    (logVerif st pk m).nonces = st.nonces := rfl

@[simp] theorem logVerif_replies (st : ServerState) (pk m : String) :
    (logVerif st pk m).replies = st.replies := rfl

@[simp] theorem logVerif_verifLog (st : ServerState) (pk m : String) :
    (logVerif st pk m).verifLog = st.verifLog ++ [(pk, m)] := rfl

theorem handleQuery_pendingUsers (cfg : Config) (st : ServerState) (tag : String)
    (u : Option String) : (handleQuery cfg st tag u).1.pendingUsers = st.pendingUsers := by
  unfold handleQuery
  (repeat' split) <;> rfl

theorem handleSend_pendingUsers (cfg : Config) (st : ServerState) (tag : String)
    (c sig : Option String) : (handleSend cfg st tag c sig).1.pendingUsers = st.pendingUsers := by
  unfold handleSend
  dsimp only
  (repeat' split) <;> rfl

theorem handleLogin_pendingUsers (cfg : Config) (st : ServerState) (tag : String)
    (u : Option String) (n : String) :
    (handleLogin cfg st tag u n).1.pendingUsers = st.pendingUsers := by
  unfold handleLogin
  (repeat' split) <;> rfl

theorem handleLoginResponse_pendingUsers (cfg : Config) (st : ServerState) (tag : String)
    (sig : Option String) :
    (handleLoginResponse cfg st tag sig).1.pendingUsers = st.pendingUsers := by
  unfold handleLoginResponse
  dsimp only
  (repeat' split) <;> rfl

theorem handleRegister_pendingUsers_ne (cfg : Config) (st : ServerState) (tag : String)
    (u pk : Option String) (n : String) (T : String) (h : tag ≠ T) :
    dictGet (handleRegister cfg st tag u pk n).1.pendingUsers T =
      dictGet st.pendingUsers T := by
  unfold handleRegister
  (repeat' split) <;> first
    | rfl
    | simp [dictGet_dictSet_ne _ _ _ _ h]

theorem handleRegistrationResponse_pendingUsers_none (cfg : Config) (st : ServerState)
    (tag : String) (sig : Option String) (r1 r2 : Nat) (T : String)
    (h : dictGet st.pendingUsers T = none) :
    dictGet (handleRegistrationResponse cfg st tag sig r1 r2).1.pendingUsers T = none := by
  unfold handleRegistrationResponse
  dsimp only
  by_cases hT : tag = T
  · subst hT
    (repeat' split) <;>
      simp_all [dictGet_dictDel_self]
  · (repeat' split) <;>
      simp_all [dictGet_dictDel_ne _ _ _ hT]

/-- Does this step carry a `register` action observed at tag `T`? -/
def isRegisterFrom (T : String) : Step → Bool
  | .register t _ _ _ => t == T
  | _ => false

/-- No handler other than a `register` observed at `T` can create a
pending registration for `T`. -/
theorem stepRun_pendingUsers_none (cfg : Config) (st : ServerState) (s : Step)
    (T : String) (hs : isRegisterFrom T s = false)
    (h : dictGet st.pendingUsers T = none) :
    dictGet (stepRun cfg st s).1.pendingUsers T = none := by
  cases s with
  | register t u pk n =>
    have ht : t ≠ T := by simpa [isRegisterFrom] using hs
    rw [stepRun, handleRegister_pendingUsers_ne cfg st t u pk n T ht]
    exact h
  | registrationResponse t sig r1 r2 =>
    exact handleRegistrationResponse_pendingUsers_none cfg st t sig r1 r2 T h
  | login t u n => rw [stepRun, handleLogin_pendingUsers]; exact h
  | loginResponse t sig => rw [stepRun, handleLoginResponse_pendingUsers]; exact h
  | query t u => rw [stepRun, handleQuery_pendingUsers]; exact h
  | send t c sig => rw [stepRun, handleSend_pendingUsers]; exact h

/-- Absence of a pending registration for `T` is preserved by any run
containing no `register` from `T`. -/
theorem run_pendingUsers_none (cfg : Config) (T : String) :
    ∀ (steps : List Step) (st : ServerState),
      dictGet st.pendingUsers T = none →
      (∀ s ∈ steps, isRegisterFrom T s = false) →
      dictGet (run cfg st steps).1.pendingUsers T = none := by
  intro steps
  induction steps with
  | nil => intro st h _; simpa [run] using h
  | cons s rest ih =>
    intro st h hsteps
    rw [run]
    have hs : isRegisterFrom T s = false := hsteps s (List.mem_cons_self s rest)
    have h' := stepRun_pendingUsers_none cfg st s T hs h
    cases hr : stepRun cfg st s with
    | mk st' e =>
      cases e with
      | none =>
        simpa using ih st' (by rw [hr] at h'; exact h')
          (fun x hx => hsteps x (List.mem_cons_of_mem s hx))
      | some err => simpa using (by rw [hr] at h'; exact h')

/-- **C4.** The registration challenge is one-shot.  (i) A
`registrationResponse` whose signature fails verification discards the
pending registration for that tag and replies
`error: signature verification failed`.  (ii) Absence of a pending
registration for tag `T` is preserved by any subsequent messages that
include no `register` observed at `T`.  (iii) A `registrationResponse`
from a tag with no pending registration only replies
`error: no pending registration for sender` — no signature
verification is performed (the verification log is unchanged) and the
state is otherwise untouched, so an issued nonce is never verified
against again after a failure. -/
theorem c4_registration_challenge_one_shot (cfg : Config) (T : String) :
    (∀ (st : ServerState) (sig : Option String) (r1 r2 : Nat) (entry : PendingEntry),
      dictGet st.pendingUsers T = some entry →
      verifySig cfg entry.publicKey entry.nonce sig = false →
      (handleRegistrationResponse cfg st T sig r1 r2).2 = none ∧
      dictGet (handleRegistrationResponse cfg st T sig r1 r2).1.pendingUsers T = none ∧
      (handleRegistrationResponse cfg st T sig r1 r2).1.replies =
        st.replies ++ [⟨T, .text "error: signature verification failed",
          "challengeResponse", "registration"⟩]) ∧
    (∀ (st : ServerState) (steps : List Step),
      dictGet st.pendingUsers T = none →
      (∀ s ∈ steps, isRegisterFrom T s = false) →
      dictGet (run cfg st steps).1.pendingUsers T = none) ∧
    (∀ (st : ServerState) (sig : Option String) (r1 r2 : Nat),
      dictGet st.pendingUsers T = none →
      handleRegistrationResponse cfg st T sig r1 r2 =
        (sendReply st T (.text "error: no pending registration for sender")
          "challengeResponse" "registration", none)) := by
  refine ⟨?_, ?_, ?_⟩
  · intro st sig r1 r2 entry hp hv
    unfold handleRegistrationResponse
    rw [hp]
    dsimp only
    rw [hv]
    simp [dictGet_dictDel_self, sendReply, logVerif]
  · intro st steps h hsteps
    exact run_pendingUsers_none cfg T steps st h hsteps
  · intro st sig r1 r2 h
    unfold handleRegistrationResponse
    rw [h]

/-- A config whose signature verification always rejects. -/
def cfgNever : Config := ⟨fun _ _ _ => false, encData, decData, fun _ => none⟩

/-- A server state with one pending registration for tag `"T"`. -/
def stC4 : ServerState := ⟨[], [("T", ⟨"alice", "PKA", "N1"⟩)], [], [], []⟩

/-- Witness for `c4_registration_challenge_one_shot` at concrete inputs. -/
theorem c4_registration_challenge_one_shot_witness :
    ((handleRegistrationResponse cfgNever stC4 "T" (some "bad") 0 0).2 = none ∧
      dictGet (handleRegistrationResponse cfgNever stC4 "T" (some "bad") 0 0).1.pendingUsers "T" = none ∧
      (handleRegistrationResponse cfgNever stC4 "T" (some "bad") 0 0).1.replies =
        stC4.replies ++ [⟨"T", .text "error: signature verification failed",
          "challengeResponse", "registration"⟩]) ∧
    dictGet (run cfgNever initialState [.query "Q" (some "alice")]).1.pendingUsers "T" = none ∧
    handleRegistrationResponse cfgNever initialState "T" (some "bad") 0 0 =
      (sendReply initialState "T" (.text "error: no pending registration for sender")
        "challengeResponse" "registration", none) :=
  ⟨(c4_registration_challenge_one_shot cfgNever "T").1 stC4 (some "bad") 0 0
      ⟨"alice", "PKA", "N1"⟩ (by decide) rfl,
   (c4_registration_challenge_one_shot cfgNever "T").2.1 initialState
      [.query "Q" (some "alice")] rfl (by decide),
   (c4_registration_challenge_one_shot cfgNever "T").2.2 initialState (some "bad") 0 0 rfl⟩

/-- **C7.** The set of writable fields of `updateUserField` is closed:
any field name outside `{publicKey, senderTag}` is rejected before any
storage operation, leaving every row unchanged, and an `UPDATE` is
executed exactly for the two allowed field names. -/
theorem c7_update_field_closed (users : List UserRow) (u field v : String) :
    (field ≠ "publicKey" → field ≠ "senderTag" →
      updateUserField users u field v = ⟨false, false, users⟩) ∧
    ((updateUserField users u field v).executed = true ↔
      field = "publicKey" ∨ field = "senderTag") := by
  constructor
  · intro h1 h2
    unfold updateUserField
    rw [if_neg (by simpa using h1), if_neg (by simpa using h2)]
  · unfold updateUserField
    by_cases h1 : field = "publicKey"
    · simp [h1]
    · by_cases h2 : field = "senderTag"
      · simp [h1, h2]
      · simp [h1, h2]

/-- Witness for `c7_update_field_closed`: the field name `username` is
rejected with no storage change. -/
theorem c7_update_field_closed_witness :
    updateUserField [⟨"alice", "E1", "E2"⟩] "alice" "username" "x" =
      ⟨false, false, [⟨"alice", "E1", "E2"⟩]⟩ :=
  (c7_update_field_closed [⟨"alice", "E1", "E2"⟩] "alice" "username" "x").1
    (by decide) (by decide)

/-- **C3 (counterexample).** A `register` whose `usernym` contains a
space — so does not match `[A-Za-z0-9_-]+` — but whose `publicKey` is
the empty string is answered `error: missing username or public key`,
not `error: invalid username format`: the truthiness check runs before
the format check. -/
theorem c3_counterexample :
    isValidUsername "bad name" = false ∧
    (handleRegister cfgNever initialState "T" (some "bad name") (some "") "N").1.replies =
      [⟨"T", .text "error: missing username or public key", "challengeResponse", "registration"⟩] ∧
    (handleRegister cfgNever initialState "T" (some "bad name") (some "") "N").1.replies ≠
      [⟨"T", .text "error: invalid username format", "challengeResponse", "registration"⟩] := by
  decide

/-- **C3 (amended).** For every `register` whose `usernym` and
`publicKey` are non-empty and whose `usernym` does not match
`[A-Za-z0-9_-]+`, the server replies `error: invalid username format`
under `challengeResponse` and creates no pending registration. -/
theorem c3_invalid_username_rejected (cfg : Config) (st : ServerState)
    (tag u pk nonce : String) (hu : u ≠ "") (hpk : pk ≠ "")
    (hinv : isValidUsername u = false) :
    handleRegister cfg st tag (some u) (some pk) nonce =
      (sendReply st tag (.text "error: invalid username format")
        "challengeResponse" "registration", none) ∧
    (handleRegister cfg st tag (some u) (some pk) nonce).1.pendingUsers =
      st.pendingUsers := by
  have hmain : handleRegister cfg st tag (some u) (some pk) nonce =
      (sendReply st tag (.text "error: invalid username format")
        "challengeResponse" "registration", none) := by
    unfold handleRegister
    simp [truthyVal, hu, hpk, hinv]
  exact ⟨hmain, by rw [hmain, sendReply_pendingUsers]⟩

/-- Witness for `c3_invalid_username_rejected` at
`usernym = "bad name"`. -/
theorem c3_invalid_username_rejected_witness :
    handleRegister cfgNever initialState "T" (some "bad name") (some "PK") "N" =
      (sendReply initialState "T" (.text "error: invalid username format")
        "challengeResponse" "registration", none) ∧
    (handleRegister cfgNever initialState "T" (some "bad name") (some "PK") "N").1.pendingUsers =
      initialState.pendingUsers :=
  c3_invalid_username_rejected cfgNever initialState "T" "bad name" "PK" "N"
    (by decide) (by decide) (by decide)

/-- A config whose signature verification always accepts. -/
def cfgAlways : Config := ⟨fun _ _ _ => true, encData, decData, fun _ => none⟩

/-- **C10.** In `registrationResponse`, when signature verification
succeeds but the insert fails (the username already exists, the only
failure `addUser` reports), the server replies
`error: database failure` and the pending registration entry is
retained — the nonce stays presentable.  The entry is deleted only on
successful insert or failed verification (the latter is
`c4_registration_challenge_one_shot`). -/
theorem c10_db_failure_retains_pending (cfg : Config) (st : ServerState)
    (T : String) (sig : Option String) (r1 r2 : Nat) (entry : PendingEntry)
    (hp : dictGet st.pendingUsers T = some entry)
    (hv : verifySig cfg entry.publicKey entry.nonce sig = true)
    (hdup : st.users.any (·.username == entry.username) = true) :
    (handleRegistrationResponse cfg st T sig r1 r2).2 = none ∧
    (handleRegistrationResponse cfg st T sig r1 r2).1.pendingUsers = st.pendingUsers ∧
    dictGet (handleRegistrationResponse cfg st T sig r1 r2).1.pendingUsers T = some entry ∧
    (handleRegistrationResponse cfg st T sig r1 r2).1.users = st.users ∧
    (handleRegistrationResponse cfg st T sig r1 r2).1.replies =
      st.replies ++ [⟨T, .text "error: database failure",
        "challengeResponse", "registration"⟩] := by
  have haddf : addUser cfg.enc r1 r2 st.users entry.username entry.publicKey T =
      (false, st.users) := by
    unfold addUser; rw [if_pos hdup]
  unfold handleRegistrationResponse
  rw [hp]
  simp [hv, haddf, hp, sendReply, logVerif]

/-- A server state for the C10 witness: `alice` already inserted and a
pending registration for `alice` at tag `"T"`. -/
def stC10 : ServerState :=
  ⟨[⟨"alice", "E1", "E2"⟩], [("T", ⟨"alice", "PKA", "N1"⟩)], [], [], []⟩

/-- Witness for `c10_db_failure_retains_pending`. -/
theorem c10_db_failure_retains_pending_witness :
    (handleRegistrationResponse cfgAlways stC10 "T" (some "sig") 0 1).2 = none ∧
    (handleRegistrationResponse cfgAlways stC10 "T" (some "sig") 0 1).1.pendingUsers =
      stC10.pendingUsers ∧
    dictGet (handleRegistrationResponse cfgAlways stC10 "T" (some "sig") 0 1).1.pendingUsers
      "T" = some ⟨"alice", "PKA", "N1"⟩ ∧
    (handleRegistrationResponse cfgAlways stC10 "T" (some "sig") 0 1).1.users = stC10.users ∧
    (handleRegistrationResponse cfgAlways stC10 "T" (some "sig") 0 1).1.replies =
      stC10.replies ++ [⟨"T", .text "error: database failure",
        "challengeResponse", "registration"⟩] :=
  c10_db_failure_retains_pending cfgAlways stC10 "T" (some "sig") 0 1
    ⟨"alice", "PKA", "N1"⟩ (by decide) rfl (by decide)

/-! ## Username uniqueness machinery (C5) -/

theorem handleQuery_users (cfg : Config) (st : ServerState) (tag : String)
    (u : Option String) : (handleQuery cfg st tag u).1.users = st.users := by
  unfold handleQuery
  (repeat' split) <;> rfl

theorem handleRegister_users (cfg : Config) (st : ServerState) (tag : String)
    (u pk : Option String) (n : String) :
    (handleRegister cfg st tag u pk n).1.users = st.users := by
  unfold handleRegister
  (repeat' split) <;> rfl

theorem handleLogin_users (cfg : Config) (st : ServerState) (tag : String)
    (u : Option String) (n : String) :
    (handleLogin cfg st tag u n).1.users = st.users := by
  unfold handleLogin
  (repeat' split) <;> rfl

/-- `updateUserField` never changes the `username` column of any row. -/
theorem updateUserField_usernames (users : List UserRow) (u field v : String) :
    (updateUserField users u field v).users.map (·.username) =
      users.map (·.username) := by
  unfold updateUserField
  (repeat' split) <;>
    simp only [List.map_map] <;>
    exact List.map_congr_left (fun r _ => by by_cases h : r.username = u <;> simp [h])

theorem handleLoginResponse_usernames (cfg : Config) (st : ServerState) (tag : String)
    (sig : Option String) :
    (handleLoginResponse cfg st tag sig).1.users.map (·.username) =
      st.users.map (·.username) := by
  unfold handleLoginResponse
  dsimp only
  (repeat' split) <;> first
    | rfl
    | simp [updateUserField_usernames]

theorem handleSend_usernames (cfg : Config) (st : ServerState) (tag : String)
    (c sig : Option String) :
    (handleSend cfg st tag c sig).1.users.map (·.username) =
      st.users.map (·.username) := by
  unfold handleSend
  dsimp only
  (repeat' split) <;> first
    | rfl
    | simp [updateUserField_usernames]

/-- `addUser` preserves distinctness of usernames: it refuses the insert
when the username is present, and otherwise appends a username that was
absent. -/
theorem addUser_nodup (enc : Nat → String → String) (r1 r2 : Nat)
    (users : List UserRow) (u pk tag : String)
    (h : (users.map (·.username)).Nodup) :
    ((addUser enc r1 r2 users u pk tag).2.map (·.username)).Nodup := by
  unfold addUser
  by_cases hdup : users.any (·.username == u)
  · rw [if_pos hdup]; exact h
  · rw [if_neg hdup]
    dsimp only
    rw [List.map_append]
    simp only [List.map_cons, List.map_nil]
    have hu : u ∉ users.map (·.username) := by
      intro hmem
      apply hdup
      rw [List.any_eq_true]
      rcases List.mem_map.mp hmem with ⟨r, hr, hru⟩
      exact ⟨r, hr, by simp [hru]⟩
    rw [List.nodup_append]
    refine ⟨h, List.nodup_singleton u, ?_⟩
    intro a ha hmem
    rw [List.mem_singleton] at hmem
    subst hmem
    exact hu ha

theorem handleRegistrationResponse_nodup (cfg : Config) (st : ServerState)
    (tag : String) (sig : Option String) (r1 r2 : Nat)
    (h : (st.users.map (·.username)).Nodup) :
    (((handleRegistrationResponse cfg st tag sig r1 r2).1.users).map (·.username)).Nodup := by
  unfold handleRegistrationResponse
  dsimp only
  (repeat' split) <;> first
    | exact h
    | simpa using addUser_nodup cfg.enc r1 r2 st.users _ _ tag h

/-- Single-message preservation of username uniqueness. -/
theorem stepRun_nodup (cfg : Config) (st : ServerState) (s : Step)
    (h : (st.users.map (·.username)).Nodup) :
    (((stepRun cfg st s).1.users).map (·.username)).Nodup := by
  cases s with
  | register t u pk n => rw [stepRun, handleRegister_users]; exact h
  | registrationResponse t sig r1 r2 => exact handleRegistrationResponse_nodup cfg st t sig r1 r2 h
  | login t u n => rw [stepRun, handleLogin_users]; exact h
  | loginResponse t sig => rw [stepRun, handleLoginResponse_usernames]; exact h
  | query t u => rw [stepRun, handleQuery_users]; exact h
  | send t c sig => rw [stepRun, handleSend_usernames]; exact h

/-- Trace-level preservation of username uniqueness. -/
theorem run_nodup (cfg : Config) :
    ∀ (steps : List Step) (st : ServerState),
      (st.users.map (·.username)).Nodup →
      (((run cfg st steps).1.users).map (·.username)).Nodup := by
  intro steps
  induction steps with
  | nil => intro st h; simpa [run] using h
  | cons s rest ih =>
    intro st h
    rw [run]
    have h' := stepRun_nodup cfg st s h
    cases hr : stepRun cfg st s with
    | mk st' e =>
      rw [hr] at h'
      cases e with
      | none => simpa using ih st' h'
      | some err => simpa using h'

/-- Distinct usernames mean at most one row per username. -/
theorem filter_username_le_one (users : List UserRow)
    (h : (users.map (·.username)).Nodup) (u : String) :
    (users.filter (fun r => r.username == u)).length ≤ 1 := by
  induction users with
  | nil => simp
  | cons r rest ih =>
    rw [List.map_cons, List.nodup_cons] at h
    by_cases hr : (r.username == u) = true
    · have hru : r.username = u := by simpa using hr
      have hnone : rest.filter (fun r => r.username == u) = [] := by
        rw [List.filter_eq_nil_iff]
        intro a ha hau
        have hau' : a.username = u := by simpa using hau
        exact h.1 (List.mem_map.mpr ⟨a, ha, by rw [hau', hru]⟩)
      simp [List.filter_cons, hr, hnone]
    · simp only [List.filter_cons, hr, Bool.false_eq_true, if_neg, ite_false]
      exact ih h.2

/-- **C5.** Username uniqueness.  (i) Distinctness of usernames — at most
one row per username — is an invariant of every run of the message
handlers (the fresh database starts empty, hence distinct).  (ii) A
`register` naming an existing (readable) username is refused with
`error: username already in use` and no state change beyond the reply.
(iii) `addUser` on an existing username reports failure with the table
exactly as it was. -/
theorem c5_username_uniqueness (cfg : Config) :
    (∀ (steps : List Step) (st : ServerState),
      (st.users.map (·.username)).Nodup →
      ((run cfg st steps).1.users.map (·.username)).Nodup ∧
      ∀ u, ((run cfg st steps).1.users.filter (fun r => r.username == u)).length ≤ 1) ∧
    (∀ (st : ServerState) (tag u pk nonce : String) (x : String × String × String),
      u ≠ "" → pk ≠ "" → isValidUsername u = true →
      getUserByUsername cfg.dec st.users u = .ok (some x) →
      handleRegister cfg st tag (some u) (some pk) nonce =
        (sendReply st tag (.text "error: username already in use")
          "challengeResponse" "registration", none)) ∧
    (∀ (r1 r2 : Nat) (users : List UserRow) (u pk t : String),
      users.any (·.username == u) = true →
      addUser cfg.enc r1 r2 users u pk t = (false, users)) := by
  refine ⟨?_, ?_, ?_⟩
  · intro steps st h
    have hrun := run_nodup cfg steps st h
    exact ⟨hrun, filter_username_le_one _ hrun⟩
  · intro st tag u pk nonce x hu hpk hval hdup
    unfold handleRegister
    simp [truthyVal, hu, hpk, hval, hdup]
  · intro r1 r2 users u pk t hdup
    unfold addUser
    rw [if_pos hdup]

/-- A server state whose single `alice` row is stored in properly
encrypted form (decryptable via `decData`). -/
def stEnc : ServerState :=
  ⟨[⟨"alice", encData 0 "PK", encData 1 "T1"⟩], [], [], [], []⟩

/-- Witness for `c5_username_uniqueness`: a run registering `alice`
twice from two tags keeps a single `alice` row; the duplicate `register`
is refused; `addUser` on the duplicate is a no-op. -/
theorem c5_username_uniqueness_witness :
    (((run cfgAlways initialState
        [.register "T1" (some "alice") (some "PKA") "N1",
         .registrationResponse "T1" (some "S1") 0 1,
         .register "T2" (some "alice") (some "PKA2") "N2"]).1.users.map
          (·.username)).Nodup ∧
      ∀ u, ((run cfgAlways initialState
        [.register "T1" (some "alice") (some "PKA") "N1",
         .registrationResponse "T1" (some "S1") 0 1,
         .register "T2" (some "alice") (some "PKA2") "N2"]).1.users.filter
          (fun r => r.username == u)).length ≤ 1) ∧
    handleRegister cfgAlways stEnc "T2" (some "alice") (some "PKA2") "N2" =
      (sendReply stEnc "T2" (.text "error: username already in use")
        "challengeResponse" "registration", none) ∧
    addUser cfgAlways.enc 0 1 [⟨"alice", "E1", "E2"⟩] "alice" "PK" "T" =
      (false, [⟨"alice", "E1", "E2"⟩]) :=
  ⟨(c5_username_uniqueness cfgAlways).1 _ initialState (by decide),
   (c5_username_uniqueness cfgAlways).2.1 stEnc "T2" "alice" "PKA2" "N2"
     ("alice", "PK", "T1")
     (by decide) (by decide) (by decide) rfl,
   (c5_username_uniqueness cfgAlways).2.2 0 1 [⟨"alice", "E1", "E2"⟩] "alice" "PK" "T"
     (by decide)⟩

/-- `find?` over the users table locates the (unique) row of a username
when no earlier row carries it. -/
theorem find?_username_append (pre : List UserRow) (r : UserRow) (post : List UserRow)
    (u : String) (hpre : ∀ x ∈ pre, x.username ≠ u) (hr : r.username = u) :
    ((pre ++ r :: post).find? (·.username == u)) = some r := by
  induction pre with
  | nil => simp [List.find?, hr]
  | cons a rest ih =>
    have ha : a.username ≠ u := hpre a (List.mem_cons_self a rest)
    simp only [List.cons_append, List.find?]
    rw [show (a.username == u) = false by simpa using ha]
    exact ih (fun x hx => hpre x (List.mem_cons_of_mem a hx))

/-- **C2.** Query privacy.  (i) A `query` on a present (readable)
username replies with the dict holding exactly the fields `username`
and `publicKey` — the stored `senderTag` is not part of the payload.
(ii) A `query` on an absent username replies with the literal string
`No user found`.  (iii) Noninterference: two directory states that
differ only in the queried user's stored (decryptable) `senderTag`
produce identical query responses and identical error behaviour. -/
theorem c2_query_reveals_no_sender_tag (cfg : Config) :
    (∀ (st : ServerState) (tag u un pk tg : String),
      u ≠ "" →
      getUserByUsername cfg.dec st.users u = .ok (some (un, pk, tg)) →
      handleQuery cfg st tag (some u) =
        (sendReply st tag (.obj [("username", some un), ("publicKey", some pk)])
          "queryResponse" "query", none)) ∧
    (∀ (st : ServerState) (tag u : String),
      u ≠ "" →
      getUserByUsername cfg.dec st.users u = .ok none →
      handleQuery cfg st tag (some u) =
        (sendReply st tag (.text "No user found") "queryResponse" "query", none)) ∧
    (∀ (pre post : List UserRow) (r₁ r₂ : UserRow)
        (pend non : List (String × PendingEntry)) (rep : List Reply)
        (vlog : List (String × String)) (tag u pkv x₁ x₂ : String),
      u ≠ "" →
      r₁.username = u → r₂.username = u → r₁.pkStored = r₂.pkStored →
      cfg.dec r₁.pkStored = some pkv →
      cfg.dec r₁.tagStored = some x₁ → cfg.dec r₂.tagStored = some x₂ →
      (∀ x ∈ pre, x.username ≠ u) →
      (handleQuery cfg ⟨pre ++ r₁ :: post, pend, non, rep, vlog⟩ tag (some u)).1.replies =
        (handleQuery cfg ⟨pre ++ r₂ :: post, pend, non, rep, vlog⟩ tag (some u)).1.replies ∧
      (handleQuery cfg ⟨pre ++ r₁ :: post, pend, non, rep, vlog⟩ tag (some u)).2 =
        (handleQuery cfg ⟨pre ++ r₂ :: post, pend, non, rep, vlog⟩ tag (some u)).2) := by
  have hhit : ∀ (st : ServerState) (tag u un pk tg : String),
      u ≠ "" →
      getUserByUsername cfg.dec st.users u = .ok (some (un, pk, tg)) →
      handleQuery cfg st tag (some u) =
        (sendReply st tag (.obj [("username", some un), ("publicKey", some pk)])
          "queryResponse" "query", none) := by
    intro st tag u un pk tg hu hlook
    unfold handleQuery
    simp [truthyVal, hu, hlook]
  refine ⟨hhit, ?_, ?_⟩
  · intro st tag u hu hlook
    unfold handleQuery
    simp [truthyVal, hu, hlook]
  · intro pre post r₁ r₂ pend non rep vlog tag u pkv x₁ x₂ hu h1 h2 hpk hdpk hd1 hd2 hpre
    have hl1 : getUserByUsername cfg.dec (pre ++ r₁ :: post) u =
        .ok (some (r₁.username, pkv, x₁)) := by
      unfold getUserByUsername
      rw [find?_username_append pre r₁ post u hpre h1]
      dsimp only
      rw [hdpk, hd1]
    have hl2 : getUserByUsername cfg.dec (pre ++ r₂ :: post) u =
        .ok (some (r₂.username, pkv, x₂)) := by
      unfold getUserByUsername
      rw [find?_username_append pre r₂ post u hpre h2]
      dsimp only
      rw [← hpk, hdpk, hd2]
    rw [hhit ⟨pre ++ r₁ :: post, pend, non, rep, vlog⟩ tag u r₁.username pkv x₁ hu hl1,
      hhit ⟨pre ++ r₂ :: post, pend, non, rep, vlog⟩ tag u r₂.username pkv x₂ hu hl2]
    rw [h1, h2]
    exact ⟨rfl, rfl⟩

/-- Witness for `c2_query_reveals_no_sender_tag`: concrete hit, miss,
and two states differing only in `alice`'s encrypted sender tag. -/
theorem c2_query_reveals_no_sender_tag_witness :
    (handleQuery cfgAlways stEnc "Q" (some "alice") =
      (sendReply stEnc "Q" (.obj [("username", some "alice"), ("publicKey", some "PK")])
        "queryResponse" "query", none)) ∧
    (handleQuery cfgAlways initialState "Q" (some "ghost") =
      (sendReply initialState "Q" (.text "No user found") "queryResponse" "query", none)) ∧
    (handleQuery cfgAlways ⟨[⟨"alice", encData 0 "PK", encData 1 "T1"⟩], [], [], [], []⟩
        "Q" (some "alice")).1.replies =
      (handleQuery cfgAlways ⟨[⟨"alice", encData 0 "PK", encData 9 "T9"⟩], [], [], [], []⟩
        "Q" (some "alice")).1.replies :=
  ⟨(c2_query_reveals_no_sender_tag cfgAlways).1 stEnc "Q" "alice" "alice" "PK" "T1"
      (by decide) rfl,
   (c2_query_reveals_no_sender_tag cfgAlways).2.1 initialState "Q" "ghost"
      (by decide) rfl,
   ((c2_query_reveals_no_sender_tag cfgAlways).2.2 [] []
      ⟨"alice", encData 0 "PK", encData 1 "T1"⟩
      ⟨"alice", encData 0 "PK", encData 9 "T9"⟩
      [] [] [] [] "Q" "alice" "PK" "T1" "T9"
      (by decide) rfl rfl rfl rfl rfl rfl (by simp)).1⟩

/-- `find?` on a username predicate commutes with a row map that
preserves usernames. -/
theorem find?_username_map (g : UserRow → UserRow) (hg : ∀ r, (g r).username = r.username)
    (users : List UserRow) (w : String) :
    (users.map g).find? (·.username == w) = (users.find? (·.username == w)).map g := by
  induction users with
  | nil => simp
  | cons r rest ih =>
    simp only [List.map_cons, List.find?, hg r]
    cases hw : (r.username == w) <;> simp [hw, ih]

/-- Unfolding the `senderTag` branch of `updateUserField` on `find?`. -/
theorem find?_updateUserField_senderTag (users : List UserRow) (u v w : String) :
    ((updateUserField users u "senderTag" v).users.find? (·.username == w)) =
      (users.find? (·.username == w)).map
        (fun r => if r.username == u then { r with tagStored := v } else r) := by
  unfold updateUserField
  rw [if_neg (by decide), if_pos (by decide)]
  exact find?_username_map _ (fun r => by by_cases h : (r.username == u) = true <;> simp [h])
    users w

/-- **C9.** In `handleSend` the sender-tag rebind is persisted before the
recipient lookup: when the signature verifies, the observed tag differs
from the stored one, and the recipient is not in the directory, the
server replies `error: recipient not found` while the users table has
already been rewritten by `updateUserField` — the first row named by the
sender now stores the observed tag, and nothing rolls it back. -/
theorem c9_send_rebind_persists_before_recipient_lookup (cfg : Config)
    (st : ServerState) (tag cs sg su ru : String) (cd : SendContent)
    (r₀ : UserRow) (dbPk dbTag : String)
    (hcs : cs ≠ "") (hsg : sg ≠ "")
    (hparse : cfg.parseContent cs = some cd)
    (hsender : truthyVal cd.sender = some su)
    (hrecip : truthyVal cd.recipient = some ru)
    (hfind : st.users.find? (·.username == su) = some r₀)
    (hdecpk : cfg.dec r₀.pkStored = some dbPk)
    (hdectag : cfg.dec r₀.tagStored = some dbTag)
    (hver : cfg.verify dbPk cs sg = true)
    (htag : dbTag ≠ tag)
    (hnorecip : st.users.find? (·.username == ru) = none) :
    (handleSend cfg st tag (some cs) (some sg)).2 = none ∧
    (handleSend cfg st tag (some cs) (some sg)).1.replies =
      st.replies ++ [⟨tag, .text "error: recipient not found", "sendResponse", "chat"⟩] ∧
    (handleSend cfg st tag (some cs) (some sg)).1.users =
      (updateUserField st.users su "senderTag" tag).users ∧
    ((handleSend cfg st tag (some cs) (some sg)).1.users.find?
        (·.username == su)).map (·.tagStored) = some tag := by
  have hlook : getUserByUsername cfg.dec st.users su =
      .ok (some (r₀.username, dbPk, dbTag)) := by
    unfold getUserByUsername
    rw [hfind]
    dsimp only
    rw [hdecpk, hdectag]
  have hupdnone : ((updateUserField st.users su "senderTag" tag).users.find?
      (·.username == ru)) = none := by
    rw [find?_updateUserField_senderTag, hnorecip]
    rfl
  have hlookR : getUserByUsername cfg.dec
      (updateUserField st.users su "senderTag" tag).users ru = .ok none := by
    unfold getUserByUsername
    rw [hupdnone]
  have hfindsu : ((updateUserField st.users su "senderTag" tag).users.find?
      (·.username == su)) = some { r₀ with tagStored := tag } := by
    rw [find?_updateUserField_senderTag, hfind]
    have hsu : (r₀.username == su) = true := by
      have := List.find?_some hfind
      simpa using this
    simp only [Option.map_some']
    rw [if_pos hsu]
  have hmain : handleSend cfg st tag (some cs) (some sg) =
      (sendReply { logVerif st dbPk cs with
          users := (updateUserField st.users su "senderTag" tag).users } tag
        (.text "error: recipient not found") "sendResponse" "chat", none) := by
    unfold handleSend
    rw [show truthyVal (some cs) = some cs by simp [truthyVal, hcs],
      show truthyVal (some sg) = some sg by simp [truthyVal, hsg]]
    dsimp only
    rw [hparse]
    dsimp only
    rw [hsender, hrecip]
    dsimp only
    rw [hlook]
    dsimp only
    rw [if_pos hver, if_pos (show (dbTag != tag) = true by simpa using htag)]
    dsimp only
    simp only [logVerif_users]
    rw [hlookR]
  refine ⟨by rw [hmain], by rw [hmain]; simp [sendReply, logVerif], ?_, ?_⟩
  · rw [hmain]; rfl
  · rw [hmain]
    show (((updateUserField st.users su "senderTag" tag).users.find?
      (·.username == su)).map (·.tagStored)) = some tag
    rw [hfindsu]
    rfl

/-- A concrete `send`-content decoder: the string `"MSG"` parses to
`{sender: "alice", recipient: "bob", body: "hi"}`. -/
def parseMsg : String → Option SendContent :=
  fun s => if s == "MSG" then some ⟨some "alice", some "bob", some "hi", none⟩ else none

/-- Config for the relay scenarios: always-accepting verification, the
modelled field cipher, and `parseMsg`. -/
def cfgSend : Config := ⟨fun _ _ _ => true, encData, decData, parseMsg⟩

/-- Witness for `c9_send_rebind_persists_before_recipient_lookup`:
`alice` (stored tag `T1`) sends to the unknown `bob` from tag `T2`. -/
theorem c9_send_rebind_persists_before_recipient_lookup_witness :
    (handleSend cfgSend stEnc "T2" (some "MSG") (some "SIG")).2 = none ∧
    (handleSend cfgSend stEnc "T2" (some "MSG") (some "SIG")).1.replies =
      stEnc.replies ++ [⟨"T2", .text "error: recipient not found", "sendResponse", "chat"⟩] ∧
    (handleSend cfgSend stEnc "T2" (some "MSG") (some "SIG")).1.users =
      (updateUserField stEnc.users "alice" "senderTag" "T2").users ∧
    ((handleSend cfgSend stEnc "T2" (some "MSG") (some "SIG")).1.users.find?
        (·.username == "alice")).map (·.tagStored) = some "T2" :=
  c9_send_rebind_persists_before_recipient_lookup cfgSend stEnc "T2" "MSG" "SIG"
    "alice" "bob" ⟨some "alice", some "bob", some "hi", none⟩
    ⟨"alice", encData 0 "PK", encData 1 "T1"⟩ "PK" "T1"
    (by decide) (by decide) rfl rfl rfl rfl rfl rfl rfl (by decide) rfl

/-- The register/login/send trace refuting **C1** on the code: register
`alice` (tag `T1`) and `bob` (tag `TB`), then a signed `send` from
`alice` observed at the new tag `T2`. -/
def c1Steps : List Step :=
  [.register "T1" (some "alice") (some "PKA") "NA",
   .registrationResponse "T1" (some "SA") 0 1,
   .register "TB" (some "bob") (some "PKB") "NB",
   .registrationResponse "TB" (some "SB") 2 3,
   .send "T2" (some "MSG") (some "SIG")]

/-- **C1 (code bug).** After the successfully authenticated `send` from
`alice` observed at `T2` (the trace ends with the `success` reply), the
`senderTag` column of `alice`'s row holds the raw plaintext `T2` —
`updateUserField` stores the observed tag unencrypted — so
`getUserByUsername` fails to decrypt it and raises instead of returning
a record with `senderTag = T2` as the claim (and spec §8.4) states. -/
theorem c1_code_bug_eval :
    (run cfgSend initialState c1Steps).2 = none ∧
    (run cfgSend initialState c1Steps).1.replies.getLast? =
      some ⟨"T2", .text "success", "sendResponse", "chat"⟩ ∧
    ((run cfgSend initialState c1Steps).1.users.find?
        (·.username == "alice")).map (·.tagStored) = some "T2" ∧
    getUserByUsername decData (run cfgSend initialState c1Steps).1.users "alice" =
      .error .decryptError :=
  ⟨rfl, rfl, rfl, rfl⟩

/-- **C6 (code bug).** `addUser` stores the sender tag encrypted, but
`getUserBySenderTag` filters with `WHERE senderTag = ?` against the
*stored* column, so the freshly added user is not found under their
plaintext tag (`.ok none`), while the spec's decrypt-and-scan
(`getUserBySenderTagSpec`) returns the record. -/
theorem c6_code_bug_eval :
    (addUser encData 0 1 [] "alice" "PKA" "T1").1 = true ∧
    getUserBySenderTag decData (addUser encData 0 1 [] "alice" "PKA" "T1").2 "T1" =
      .ok none ∧
    getUserBySenderTagSpec decData (addUser encData 0 1 [] "alice" "PKA" "T1").2 "T1" =
      some ("alice", "PKA", "T1") :=
  ⟨rfl, rfl, rfl⟩

/-! ## Server-key field encryption (`cryptographyUtils`, C8)

`_encrypt_private_key` / `_decrypt_private_key` are embedded at the byte
level: bytes are `List Nat` (each `< 256`), the base64 codec is
concrete, and PBKDF2 (`_derive_key`, a pure function of the salt for a
fixed operator password) and AES-256-GCM are abstract parameters. -/

/-- The standard base64 alphabet, by index. -/
def b64char (n : Nat) : Char :=
  if n < 26 then Char.ofNat (65 + n)
  else if n < 52 then Char.ofNat (97 + (n - 26))
  else if n < 62 then Char.ofNat (48 + (n - 52))
  else if n = 62 then '+'
  else '/'

/-- Index of a base64 alphabet character (`none` for anything else,
including the padding `'='`). -/
def b64index (c : Char) : Option Nat :=
  let v := c.toNat
  if 65 ≤ v ∧ v ≤ 90 then some (v - 65)
  else if 97 ≤ v ∧ v ≤ 122 then some (v - 97 + 26)
  else if 48 ≤ v ∧ v ≤ 57 then some (v - 48 + 52)
  else if v = 43 then some 62
  else if v = 47 then some 63
  else none

theorem b64index_b64char : ∀ n, n < 64 → b64index (b64char n) = some n := by decide

theorem b64char_ne_pad : ∀ n, n < 64 → b64char n ≠ '=' := by decide

/-- `base64.b64encode`: 3-byte groups to 4 characters, padded with `=`. -/
def b64encode : List Nat → List Char
  | [] => []
  | [a] => [b64char (a / 4), b64char (a % 4 * 16), '=', '=']
  | [a, b] => [b64char (a / 4), b64char (a % 4 * 16 + b / 16), b64char (b % 16 * 4), '=']
  | a :: b :: c :: rest =>
    b64char (a / 4) :: b64char (a % 4 * 16 + b / 16) :: b64char (b % 16 * 4 + c / 64) ::
      b64char (c % 64) :: b64encode rest

/-- `base64.b64decode` on well-formed input (4-character groups, `=`
padding only at the end); anything else is rejected. -/
def b64decode : List Char → Option (List Nat)
  | [] => some []
  | w :: x :: y :: z :: rest =>
    match b64index w, b64index x with
    | some i, some j =>
      if y = '=' then
        if z = '=' ∧ rest = [] then some [i * 4 + j / 16] else none
      else
        match b64index y with
        | some k =>
          if z = '=' then
            if rest = [] then some [i * 4 + j / 16, j % 16 * 16 + k / 4] else none
          else
            match b64index z with
            | some m =>
              match b64decode rest with
              | some tail =>
                some ((i * 4 + j / 16) :: (j % 16 * 16 + k / 4) :: (k % 4 * 64 + m) :: tail)
              | none => none
            | none => none
        | none => none
    | _, _ => none
  | _ => none

/-- The base64 codec round-trips on byte lists. -/
theorem b64decode_b64encode : ∀ (l : List Nat), (∀ b ∈ l, b < 256) →
    b64decode (b64encode l) = some l := by
  intro l
  induction l using b64encode.induct with
  | case1 => intro _; rfl
  | case2 a =>
    intro hb
    have ha : a < 256 := hb a (by simp)
    simp only [b64encode, b64decode]
    rw [b64index_b64char _ (by omega), b64index_b64char _ (by omega)]
    dsimp only
    simp
    omega
  | case3 a b =>
    intro hb
    have ha : a < 256 := hb a (by simp)
    have hbb : b < 256 := hb b (by simp)
    simp only [b64encode, b64decode]
    rw [b64index_b64char _ (by omega), b64index_b64char _ (by omega)]
    dsimp only
    rw [if_neg (b64char_ne_pad _ (by omega))]
    rw [b64index_b64char _ (by omega)]
    dsimp only
    simp
    constructor <;> omega
  | case4 a b c rest ih =>
    intro hb
    have ha : a < 256 := hb a (by simp)
    have hbb : b < 256 := hb b (by simp)
    have hc : c < 256 := hb c (by simp)
    have hrest : ∀ x ∈ rest, x < 256 := fun x hx => hb x (by simp [hx])
    simp only [b64encode, b64decode]
    rw [b64index_b64char _ (by omega), b64index_b64char _ (by omega)]
    dsimp only
    rw [if_neg (b64char_ne_pad _ (by omega))]
    rw [b64index_b64char _ (by omega)]
    dsimp only
    rw [if_neg (b64char_ne_pad _ (by omega))]
    rw [b64index_b64char _ (by omega)]
    dsimp only
    rw [ih hrest]
    simp
    refine ⟨by omega, by omega, by omega⟩

/-- `CryptoUtils._encrypt_private_key` (`cryptographyUtils.py` 34–43):
derive the AES key from the fresh `salt` (PBKDF2 under the operator
password, abstracted as `deriveKey`), AES-256-GCM-encrypt under the
fresh `iv` (abstracted as `encGCM key iv pt = (ciphertext, tag)`), and
emit `base64(salt ‖ iv ‖ tag ‖ ct)`. -/
def encryptPrivateKey (deriveKey : List Nat → List Nat)
    (encGCM : List Nat → List Nat → List Nat → List Nat × List Nat)
    (salt iv pt : List Nat) : List Char :=
  b64encode (salt ++ iv ++ (encGCM (deriveKey salt) iv pt).2 ++ (encGCM (deriveKey salt) iv pt).1)

/-- `CryptoUtils._decrypt_private_key` (`cryptographyUtils.py` 45–52):
base64-decode, slice `[:16]`, `[16:28]`, `[28:44]`, `[44:]`, re-derive
the key from the salt and AES-GCM-decrypt (`decGCM key iv tag ct`,
`none` on MAC failure). -/
def decryptPrivateKey (deriveKey : List Nat → List Nat)
    (decGCM : List Nat → List Nat → List Nat → List Nat → Option (List Nat))
    (s : List Char) : Option (List Nat) :=
  match b64decode s with
  | none => none
  | some bytes =>
    decGCM (deriveKey (bytes.take 16)) ((bytes.drop 16).take 12)
      ((bytes.drop 28).take 16) (bytes.drop 44)

/-- Byte-list well-formedness: every entry is a byte. -/
def IsBytes (l : List Nat) : Prop := ∀ b ∈ l, b < 256

/-- **C8.** Round-trip and freshness of the field encryption.  With
`deriveKey` the PBKDF2 derivation under the fixed operator password,
and `encGCM`/`decGCM` an AES-256-GCM pair that inverts on the derived
key (hypothesis `hdec`/`hdec'`) and produces 16-byte tags over bytes:
(i) decrypting an encryption under the same password returns exactly
the plaintext; (ii) two encryptions of the same plaintext under
distinct salt/IV draws yield distinct ciphertexts. -/
theorem c8_encrypt_decrypt_roundtrip
    (deriveKey : List Nat → List Nat)
    (encGCM : List Nat → List Nat → List Nat → List Nat × List Nat)
    (decGCM : List Nat → List Nat → List Nat → List Nat → Option (List Nat))
    (salt iv salt' iv' pt : List Nat)
    (hsalt : salt.length = 16) (hsaltB : IsBytes salt)
    (hiv : iv.length = 12) (hivB : IsBytes iv)
    (hsalt' : salt'.length = 16) (hsaltB' : IsBytes salt')
    (hiv' : iv'.length = 12) (hivB' : IsBytes iv')
    (htag : (encGCM (deriveKey salt) iv pt).2.length = 16)
    (htag' : (encGCM (deriveKey salt') iv' pt).2.length = 16)
    (htagB : IsBytes (encGCM (deriveKey salt) iv pt).2)
    (hctB : IsBytes (encGCM (deriveKey salt) iv pt).1)
    (htagB' : IsBytes (encGCM (deriveKey salt') iv' pt).2)
    (hctB' : IsBytes (encGCM (deriveKey salt') iv' pt).1)
    (hdec : decGCM (deriveKey salt) iv (encGCM (deriveKey salt) iv pt).2
      (encGCM (deriveKey salt) iv pt).1 = some pt) :
    decryptPrivateKey deriveKey decGCM (encryptPrivateKey deriveKey encGCM salt iv pt) =
      some pt ∧
    ((salt, iv) ≠ (salt', iv') →
      encryptPrivateKey deriveKey encGCM salt iv pt ≠
        encryptPrivateKey deriveKey encGCM salt' iv' pt) := by
  have hbytes : ∀ (s i : List Nat), IsBytes s → IsBytes i →
      IsBytes (encGCM (deriveKey s) i pt).2 → IsBytes (encGCM (deriveKey s) i pt).1 →
      ∀ b ∈ s ++ i ++ (encGCM (deriveKey s) i pt).2 ++ (encGCM (deriveKey s) i pt).1,
        b < 256 := by
    intro s i hs hi ht hc b hbmem
    simp only [List.mem_append] at hbmem
    rcases hbmem with ((h | h) | h) | h
    · exact hs b h
    · exact hi b h
    · exact ht b h
    · exact hc b h
  have hslice : ∀ (s i t c : List Nat), s.length = 16 → i.length = 12 → t.length = 16 →
      (s ++ i ++ t ++ c).take 16 = s ∧
      ((s ++ i ++ t ++ c).drop 16).take 12 = i ∧
      ((s ++ i ++ t ++ c).drop 28).take 16 = t ∧
      (s ++ i ++ t ++ c).drop 44 = c := by
    intro s i t c hs hi ht
    have e1 : s ++ i ++ t ++ c = s ++ (i ++ (t ++ c)) := by simp [List.append_assoc]
    have e2 : s ++ i ++ t ++ c = (s ++ i) ++ (t ++ c) := by simp [List.append_assoc]
    have e3 : s ++ i ++ t ++ c = ((s ++ i) ++ t) ++ c := rfl
    refine ⟨?_, ?_, ?_, ?_⟩
    · rw [e1, List.take_left' hs]
    · rw [e1, List.drop_left' hs, List.take_left' hi]
    · rw [e2, List.drop_left' (by simp [hs, hi]), List.take_left' ht]
    · rw [e3, List.drop_left' (by simp [hs, hi, ht])]
  constructor
  · unfold encryptPrivateKey decryptPrivateKey
    rw [b64decode_b64encode _ (hbytes salt iv hsaltB hivB htagB hctB)]
    dsimp only
    obtain ⟨e1, e2, e3, e4⟩ := hslice salt iv (encGCM (deriveKey salt) iv pt).2
      (encGCM (deriveKey salt) iv pt).1 hsalt hiv htag
    rw [e1, e2, e3, e4]
    exact hdec
  · intro hne heq
    unfold encryptPrivateKey at heq
    have hd := congrArg b64decode heq
    rw [b64decode_b64encode _ (hbytes salt iv hsaltB hivB htagB hctB),
      b64decode_b64encode _ (hbytes salt' iv' hsaltB' hivB' htagB' hctB')] at hd
    have hlist := Option.some.inj hd
    apply hne
    have hs : salt = salt' := by
      have h1 := congrArg (List.take 16) hlist
      rwa [(hslice salt iv _ _ hsalt hiv htag).1,
        (hslice salt' iv' _ _ hsalt' hiv' htag').1] at h1
    have hi2 : iv = iv' := by
      have h2 := congrArg (fun l => (List.drop 16 l).take 12) hlist
      dsimp only at h2
      rwa [(hslice salt iv _ _ hsalt hiv htag).2.1,
        (hslice salt' iv' _ _ hsalt' hiv' htag').2.1] at h2
    rw [hs, hi2]

/-- Toy key derivation standing in for PBKDF2 in the witness. -/
def toyDerive : List Nat → List Nat := id

/-- Toy AES-GCM encryption for the witness: identity ciphertext with a
fixed 16-byte tag. -/
def toyEnc : List Nat → List Nat → List Nat → List Nat × List Nat :=
  fun _ _ pt => (pt, List.replicate 16 0)

/-- Toy AES-GCM decryption matching `toyEnc`. -/
def toyDec : List Nat → List Nat → List Nat → List Nat → Option (List Nat) :=
  fun _ _ tg ct => if tg = List.replicate 16 0 then some ct else none

/-- Witness for `c8_encrypt_decrypt_roundtrip` at concrete salt/IV/byte
inputs. -/
theorem c8_encrypt_decrypt_roundtrip_witness :
    decryptPrivateKey toyDerive toyDec
      (encryptPrivateKey toyDerive toyEnc (List.replicate 16 0) (List.replicate 12 2)
        [104, 105]) = some [104, 105] ∧
    encryptPrivateKey toyDerive toyEnc (List.replicate 16 0) (List.replicate 12 2)
        [104, 105] ≠
      encryptPrivateKey toyDerive toyEnc (List.replicate 16 1) (List.replicate 12 2)
        [104, 105] :=
  ⟨(c8_encrypt_decrypt_roundtrip toyDerive toyEnc toyDec
      (List.replicate 16 0) (List.replicate 12 2) (List.replicate 16 1)
      (List.replicate 12 2) [104, 105]
      (by decide) (by unfold IsBytes; decide) (by decide) (by unfold IsBytes; decide)
      (by decide) (by unfold IsBytes; decide) (by decide) (by unfold IsBytes; decide)
      (by decide) (by decide) (by unfold IsBytes; decide) (by unfold IsBytes; decide)
      (by unfold IsBytes; decide) (by unfold IsBytes; decide) (by decide)).1,
   (c8_encrypt_decrypt_roundtrip toyDerive toyEnc toyDec
      (List.replicate 16 0) (List.replicate 12 2) (List.replicate 16 1)
      (List.replicate 12 2) [104, 105]
      (by decide) (by unfold IsBytes; decide) (by decide) (by unfold IsBytes; decide)
      (by decide) (by unfold IsBytes; decide) (by decide) (by unfold IsBytes; decide)
      (by decide) (by decide) (by unfold IsBytes; decide) (by unfold IsBytes; decide)
      (by unfold IsBytes; decide) (by unfold IsBytes; decide) (by decide)).2
      (by decide)⟩
